import Mathlib

/-!
Verification of the security-validating command-synthesis core of the
term-video-transcoder repository (Go).  The Go sources are shallowly embedded:
pure Go functions become Lean functions over `String` / `List Char`;
`map[string]bool` whitelists become `List String` membership; Go `error`
results become a `Verdict` enumeration (`Verdict.ok` = the Go function
returned `nil`).  Strings are modelled as sequences of characters; all inputs
exercised by the claims are ASCII, where Go's byte-based `len` coincides with
the character count.  Go regular expressions are embedded as explicit
scanners; each embedding is annotated with the regex it implements.
`strconv.Atoi` with its ignored range error is modelled by `atoi`, which
clamps at `2^63 - 1` exactly as Go does on overflow.  Floating-point parsing
of decimal strings (`strconv.ParseFloat`) is modelled exactly over `ℚ`.
-/

namespace TVT

/-- Prefix test on character lists: `listStartsWith l pat` holds when `pat`
is an initial segment of `l`. -/
def listStartsWith : List Char → List Char → Bool
  | _, [] => true
  | [], _ :: _ => false
  | c :: cs, p :: ps => c = p && listStartsWith cs ps

/-- Substring test on character lists, the model of Go `strings.Contains`. -/
def listContainsSub : List Char → List Char → Bool
  | [], pat => pat.isEmpty
  | l@(_ :: rest), pat => listStartsWith l pat || listContainsSub rest pat

/-- Model of Go `strings.Contains` on strings. -/
def strContains (s pat : String) : Bool :=
  listContainsSub s.toList pat.toList

/-- Digit test matching Go's regexp class `[0-9]`. -/
def isDigitChar (c : Char) : Bool := c.isDigit

/-- Numeric value of a digit string (most significant digit first). -/
def natOfDigits (l : List Char) : Nat :=
  l.foldl (fun acc c => acc * 10 + (c.toNat - '0'.toNat)) 0

/-- Go's 64-bit `int` maximum, the clamp value of `strconv.ParseInt` on
overflow. -/
def maxInt64 : Nat := 2 ^ 63 - 1

/-- Model of `strconv.Atoi` on all-digit strings with the error ignored, as
`validation.go` does: the numeric value, clamped at `maxInt64` on overflow. -/
def atoi (l : List Char) : Nat := min (natOfDigits l) maxInt64

/-! ## internal/security/validation.go -/

/-- Outcome of a validator; `ok` models a `nil` Go error, the other
constructors model the distinct error returns of `validation.go`. -/
inductive Verdict where
  | ok
  | tooLong
  | invalidChar
  | notAllowed
  | unknownCodecType
  | badFormat
  | outOfRange
  | traversal
deriving DecidableEq, Repr

/-- `SecurityPolicy.MaxParameterLength` from `NewDefaultSecurityPolicy`. -/
def MaxParameterLength : Nat := 50

/-- `SecurityPolicy.MaxPathLength` from `NewDefaultSecurityPolicy`. -/
def MaxPathLength : Nat := 255

/-- The deny list of `containsDangerousChars` (all entries are single
characters in the Go source, so `strings.Contains` reduces to character
membership). -/
def dangerousChars : List Char :=
  [';', '&', '|', '\x60', '$', '\x28', '\x29', '\x7b', '\x7d', '\x5b', '\x5d',
   '<', '>', '\\', '\x22', '\x27', '\n', '\r', '\t']

/-- The deny list of `containsPathDangerousChars`. -/
def pathDangerousChars : List Char :=
  [';', '&', '|', '\x60', '$', '\x22', '\x27', '\n', '\r', '\t']

/-- `containsDangerousChars` from `validation.go`. -/
def containsDangerousChars (input : String) : Bool :=
  input.toList.any (fun c => dangerousChars.contains c)

/-- `containsPathDangerousChars` from `validation.go`. -/
def containsPathDangerousChars (path : String) : Bool :=
  path.toList.any (fun c => pathDangerousChars.contains c)

/-- `AllowedVideoCodecs` of `NewDefaultSecurityPolicy`. -/
def allowedVideoCodecs : List String :=
  ["libx264", "libx265", "libvpx-vp9", "libvpx", "copy"]

/-- `AllowedAudioCodecs` of `NewDefaultSecurityPolicy`. -/
def allowedAudioCodecs : List String :=
  ["aac", "libopus", "libmp3lame", "libvorbis", "flac", "pcm_s16le", "copy"]

/-- `AllowedFormats` of `NewDefaultSecurityPolicy`. -/
def allowedFormats : List String :=
  ["mp4", "avi", "mkv", "webm", "mov", "mp3", "wav", "aac", "flac", "ogg", "m4a"]

/-- `SecurityPolicy.ValidateCodec` from `validation.go`: length limit, deny
list, codec-type dispatch, whitelist membership, in that order. -/
def ValidateCodec (codec codecType : String) : Verdict :=
  if MaxParameterLength < codec.toList.length then .tooLong
  else if containsDangerousChars codec then .invalidChar
  else if codecType = "video" then
    if allowedVideoCodecs.contains codec then .ok else .notAllowed
  else if codecType = "audio" then
    if allowedAudioCodecs.contains codec then .ok else .notAllowed
  else .unknownCodecType

/-- Grammar of the bitrate regex `[0-9]+(\.[0-9]+)?[kKmM]?` anchored at both
ends.  Maximal-munch on the digit runs is equivalent to the regex because no
digit can be consumed by the following alternatives. -/
def matchBitrate (l : List Char) : Bool :=
  let intPart := l.takeWhile isDigitChar
  let rest := l.dropWhile isDigitChar
  if intPart.isEmpty then false
  else
    let tail :=
      match rest with
      | '.' :: r =>
        if (r.takeWhile isDigitChar).isEmpty then none
        else some (r.dropWhile isDigitChar)
      | r => some r
    match tail with
    | none => false
    | some [] => true
    | some [c] => c ∈ ['k', 'K', 'm', 'M']
    | some (_ :: _ :: _) => false

/-- `SecurityPolicy.ValidateBitrate` from `validation.go`. -/
def ValidateBitrate (bitrate : String) : Verdict :=
  if bitrate = "" then .ok
  else if MaxParameterLength < bitrate.toList.length then .tooLong
  else if containsDangerousChars bitrate then .invalidChar
  else if matchBitrate bitrate.toList then .ok
  else .badFormat

/-- Grammar of the resolution regex `[0-9]+x[0-9]+` anchored at both ends,
returning the two `strconv.Atoi` values (range error ignored, hence
clamped). -/
def matchResolution (l : List Char) : Option (Nat × Nat) :=
  let w := l.takeWhile isDigitChar
  match l.dropWhile isDigitChar with
  | 'x' :: rest =>
    let h := rest.takeWhile isDigitChar
    if w.isEmpty || h.isEmpty || !(rest.dropWhile isDigitChar).isEmpty then none
    else some (atoi w, atoi h)
  | _ => none

/-- `SecurityPolicy.ValidateResolution` from `validation.go`. -/
def ValidateResolution (resolution : String) : Verdict :=
  if resolution = "" then .ok
  else if MaxParameterLength < resolution.toList.length then .tooLong
  else if containsDangerousChars resolution then .invalidChar
  else
    match matchResolution resolution.toList with
    | none => .badFormat
    | some (w, h) =>
      if 7680 < w ∨ 4320 < h then .outOfRange
      else if w < 1 ∨ h < 1 then .outOfRange
      else .ok

/-- Grammar of the framerate regex `[0-9]+(\.[0-9]+)?` anchored at both ends,
returning the integer digits and the fractional digits. -/
def matchFramerate (l : List Char) : Option (List Char × List Char) :=
  let i := l.takeWhile isDigitChar
  if i.isEmpty then none
  else
    match l.dropWhile isDigitChar with
    | [] => some (i, [])
    | '.' :: rest =>
      let f := rest.takeWhile isDigitChar
      if f.isEmpty || !(rest.dropWhile isDigitChar).isEmpty then none
      else some (i, f)
    | _ => none

/-- `SecurityPolicy.ValidateFramerate` from `validation.go`.  The Go source
parses the decimal with `strconv.ParseFloat` and rejects when
`fps > 120 || fps <= 0`; over exact decimal values that test is
`120 < intPart ∨ (intPart = 120 ∧ frac ≠ 0) ∨ (intPart = 0 ∧ frac = 0)`. -/
def ValidateFramerate (framerate : String) : Verdict :=
  if framerate = "" then .ok
  else if MaxParameterLength < framerate.toList.length then .tooLong
  else if containsDangerousChars framerate then .invalidChar
  else
    match matchFramerate framerate.toList with
    | none => .badFormat
    | some (i, f) =>
      let iv := natOfDigits i
      let fv := natOfDigits f
      if 120 < iv ∨ (iv = 120 ∧ 0 < fv) ∨ (iv = 0 ∧ fv = 0) then .outOfRange
      else .ok

/-! ### filepath.Clean (Go standard library, Unix rules)

`ValidateFilePath` cleans the path first.  The cleaning is modelled
segment-wise: split on `/`, drop empty and `.` segments, resolve `..`
against a stack (a `..` that cannot be resolved is kept on relative paths
and dropped at the root of rooted paths), rejoin. -/

/-- Split a character list on `/` into segments. -/
def splitOnSlash : List Char → List (List Char)
  | [] => [[]]
  | c :: rest =>
    let r := splitOnSlash rest
    if c = '/' then [] :: r
    else
      match r with
      | [] => [[c]]
      | h :: t => (c :: h) :: t

/-- One step of Go `filepath.Clean` segment processing; the stack is kept in
reverse order. -/
def cleanStep (rooted : Bool) (stack : List (List Char)) (seg : List Char) :
    List (List Char) :=
  if seg = [] || seg = ['.'] then stack
  else if seg = ['.', '.'] then
    match stack with
    | [] => if rooted then [] else [['.', '.']]
    | top :: rest => if top = ['.', '.'] then ['.', '.'] :: top :: rest else rest
  else seg :: stack

/-- The segments of the cleaned path, in order. -/
def cleanSegments (p : String) : List (List Char) :=
  ((splitOnSlash p.toList).foldl (cleanStep (p.toList.head? = some '/')) []).reverse

/-- Join segments with `/`. -/
def joinSlash : List (List Char) → List Char
  | [] => []
  | s :: rest =>
    match rest with
    | [] => s
    | _ :: _ => s ++ '/' :: joinSlash rest

/-- Model of Go `filepath.Clean` (Unix): the cleaned path as characters. -/
def filepathClean (p : String) : List Char :=
  let rooted := p.toList.head? = some '/'
  let segs := cleanSegments p
  if rooted then '/' :: joinSlash segs
  else if segs.isEmpty then ['.']
  else joinSlash segs

/-- Whether a character list contains `..` as a (contiguous) substring, the
model of `strings.Contains(cleanPath, "..")`. -/
def hasDotDot : List Char → Bool
  | [] => false
  | c :: rest => (c = '.' && rest.head? = some '.') || hasDotDot rest

/-- `SecurityPolicy.ValidateFilePath` from `validation.go`: length limit,
then `strings.Contains(filepath.Clean(path), "..")` as the traversal check,
then the path deny list. -/
def ValidateFilePath (path : String) : Verdict :=
  if MaxPathLength < path.toList.length then .tooLong
  else if hasDotDot (filepathClean path) then .traversal
  else if containsPathDangerousChars path then .invalidChar
  else .ok

/-- Model of Go `filepath.Ext`: the suffix of the last `/`-separated element
starting at its final dot, or `""` when that element has no dot. -/
def filepathExt (path : String) : String :=
  let revLast := path.toList.reverse.takeWhile (fun c => c ≠ '/')
  let beforeDot := revLast.takeWhile (fun c => c ≠ '.')
  if beforeDot.length = revLast.length then ""
  else String.mk ('.' :: beforeDot.reverse)

/-- `SecurityPolicy.ValidateFileFormat` from `validation.go`.  Go's
`strings.ToLower` is modelled character-wise with `Char.toLower`, which
agrees with it on ASCII. -/
def ValidateFileFormat (path : String) : Verdict :=
  let ext0 := (filepathExt path).toList.map Char.toLower
  let ext := if 1 < ext0.length then ext0.drop 1 else ext0
  if allowedFormats.contains (String.mk ext) then .ok else .notAllowed

/-! ## internal/transcoder/transcoder.go -/

/-- `SupportedFormats` from `transcoder.go` (the five convertible container
formats; distinct from the security policy's `AllowedFormats`). -/
def supportedFormats : List String := ["mp4", "avi", "mkv", "webm", "mov"]

/-- `analyzer.VideoStream`. -/
structure VideoStream where
  index : Int
  codec : String
  width : Int
  height : Int
  frameRate : String
  pixelFormat : String
  bitrate : Int
deriving DecidableEq, Repr

/-- `analyzer.AudioStream`. -/
structure AudioStream where
  index : Int
  codec : String
  sampleRate : Int
  channels : Int
  bitrate : Int
  language : String
deriving DecidableEq, Repr

/-- `analyzer.MediaInfo`.  Go stores `Duration` as nanoseconds
(`time.Duration`) and the progress monitor consumes `Duration.Seconds()`;
the duration is modelled directly as an exact number of seconds. -/
structure MediaInfo where
  filename : String
  format : String
  durationSeconds : ℚ
  size : Int
  bitrate : Int
  videoStreams : List VideoStream
  audioStreams : List AudioStream
deriving DecidableEq, Repr

/-- `CustomParameters` from `transcoder.go`; an empty string is an
unspecified field. -/
structure CustomParameters where
  videoCodec : String
  audioCodec : String
  videoBitrate : String
  audioBitrate : String
  resolution : String
  framerate : String
deriving DecidableEq, Repr

/-- The all-empty `CustomParameters{}` literal used by the legacy wrappers. -/
def emptyParams : CustomParameters := ⟨"", "", "", "", "", ""⟩

/-- `getFormatFromPath` from `transcoder.go`: the lowercased output-path
extension without its dot, or `""`. -/
def getFormatFromPath (path : String) : String :=
  let ext := (filepathExt path).toList
  if 1 < ext.length then String.mk ((ext.drop 1).map Char.toLower) else ""

/-- `getDefaultCodecs` from `transcoder.go`. -/
def getDefaultCodecs (format : String) : String × String :=
  if format = "mp4" || format = "mov" then ("libx264", "aac")
  else if format = "webm" then ("libvpx-vp9", "libopus")
  else if format = "mkv" then ("libx264", "aac")
  else if format = "avi" then ("libx264", "libmp3lame")
  else ("libx264", "aac")

/-- `isCompatibleCodec` from `transcoder.go`: the lowercased stream codec
must contain one of the table entries as a substring. -/
def isCompatibleCodec (codec : String) (compatibleCodecs : List String) : Bool :=
  compatibleCodecs.any
    (fun compatible => listContainsSub (codec.toList.map Char.toLower) compatible.toList)

/-- `canUseStreamCopy` from `transcoder.go`. -/
def canUseStreamCopy (inputInfo : MediaInfo) (outputFormat : String) : Bool :=
  match inputInfo.videoStreams, inputInfo.audioStreams with
  | v :: _, a :: _ =>
    if outputFormat = "mp4" || outputFormat = "mov" then
      isCompatibleCodec v.codec ["h264", "hevc"] &&
        isCompatibleCodec a.codec ["aac", "mp3"]
    else if outputFormat = "webm" then
      isCompatibleCodec v.codec ["vp8", "vp9", "av1"] &&
        isCompatibleCodec a.codec ["vorbis", "opus"]
    else if outputFormat = "mkv" then true
    else if outputFormat = "avi" then
      isCompatibleCodec v.codec ["h264", "xvid", "divx"] &&
        isCompatibleCodec a.codec ["mp3", "ac3"]
    else false
  | _, _ => false

/-- `applyVideoPreset` from `transcoder.go`: keeps a known safe codec name
and replaces anything else by `libx264`; the preset argument is unused. -/
def applyVideoPreset (baseCodec _preset : String) : String :=
  if baseCodec = "libx264" || baseCodec = "libx265" ||
      baseCodec = "libvpx-vp9" || baseCodec = "copy" then baseCodec
  else "libx264"

/-- `applyAudioPreset` from `transcoder.go`. -/
def applyAudioPreset (baseCodec _preset : String) : String :=
  if baseCodec = "aac" || baseCodec = "libopus" || baseCodec = "libmp3lame" ||
      baseCodec = "libvorbis" || baseCodec = "flac" || baseCodec = "copy" then baseCodec
  else "aac"

/-- `selectCodecs` from `transcoder.go` (automatic selection). -/
def selectCodecs (inputInfo : MediaInfo) (outputFormat preset : String)
    (presetExplicit : Bool) : String × String × Bool :=
  let defaults := getDefaultCodecs outputFormat
  if canUseStreamCopy inputInfo outputFormat && !presetExplicit then
    ("copy", "copy", true)
  else
    (applyVideoPreset defaults.1 preset, applyAudioPreset defaults.2 preset, false)

/-- `selectCodecsWithCustomParamsSecure` from `transcoder.go`. -/
def selectCodecsWithCustomParamsSecure (inputInfo : MediaInfo)
    (outputFormat preset : String) (presetExplicit customParamsSet : Bool)
    (customParams : CustomParameters) : String × String × Bool :=
  if customParams.videoCodec ≠ "" && customParams.audioCodec ≠ "" then
    (customParams.videoCodec, customParams.audioCodec, false)
  else if customParamsSet then
    let videoCodec :=
      if customParams.videoCodec = "" then (getDefaultCodecs outputFormat).1
      else customParams.videoCodec
    let audioCodec :=
      if customParams.audioCodec = "" then (getDefaultCodecs outputFormat).2
      else customParams.audioCodec
    (applyVideoPreset videoCodec preset, applyAudioPreset audioCodec preset, false)
  else selectCodecs inputInfo outputFormat preset presetExplicit

/-- `getPresetVideoBitrate` from `transcoder.go`. -/
def getPresetVideoBitrate (preset : String) : String :=
  if preset = "low" then "1M"
  else if preset = "medium" then "2M"
  else if preset = "high" then "4M"
  else "2M"

/-- `getPresetAudioBitrate` from `transcoder.go`. -/
def getPresetAudioBitrate (preset : String) : String :=
  if preset = "low" then "128k"
  else if preset = "medium" then "192k"
  else if preset = "high" then "256k"
  else "192k"

/-- The video section of `buildFFmpegCommandWithCustomParams`: `-c:v copy`,
or the validated codec followed by the validated `-b:v` bitrate when the
video-bitrate field is non-empty; `none` models the `return nil` aborts. -/
def videoArgs (videoCodec : String) (cp : CustomParameters) : Option (List String) :=
  if videoCodec = "copy" then some ["-c:v", "copy"]
  else if ValidateCodec videoCodec "video" = Verdict.ok then
    if cp.videoBitrate = "" then some ["-c:v", videoCodec]
    else if ValidateBitrate cp.videoBitrate = Verdict.ok then
      some ["-c:v", videoCodec, "-b:v", cp.videoBitrate]
    else none
  else none

/-- The audio section of `buildFFmpegCommandWithCustomParams`. -/
def audioArgs (audioCodec : String) (cp : CustomParameters) : Option (List String) :=
  if audioCodec = "copy" then some ["-c:a", "copy"]
  else if ValidateCodec audioCodec "audio" = Verdict.ok then
    if cp.audioBitrate = "" then some ["-c:a", audioCodec]
    else if ValidateBitrate cp.audioBitrate = Verdict.ok then
      some ["-c:a", audioCodec, "-b:a", cp.audioBitrate]
    else none
  else none

/-- The `-s` section of `buildFFmpegCommandWithCustomParams`. -/
def resolutionArgs (cp : CustomParameters) : Option (List String) :=
  if cp.resolution = "" then some []
  else if ValidateResolution cp.resolution = Verdict.ok then
    some ["-s", cp.resolution]
  else none

/-- The `-r` section of `buildFFmpegCommandWithCustomParams`. -/
def framerateArgs (cp : CustomParameters) : Option (List String) :=
  if cp.framerate = "" then some []
  else if ValidateFramerate cp.framerate = Verdict.ok then
    some ["-r", cp.framerate]
  else none

/-- `buildFFmpegCommandWithCustomParams` from `transcoder.go`: defensive
re-validation of every value, then the ordered argument vector
(`exec.Command(args[0], args[1:]...)` is modelled as the full `args` list);
`none` models the `nil` command returned on any failed re-check. -/
def buildFFmpegCommandWithCustomParams (input output videoCodec audioCodec
    _preset : String) (customParams : CustomParameters) : Option (List String) :=
  if ValidateFilePath input = Verdict.ok then
    if ValidateFilePath output = Verdict.ok then
      match videoArgs videoCodec customParams with
      | none => none
      | some va =>
        match audioArgs audioCodec customParams with
        | none => none
        | some aa =>
          match resolutionArgs customParams with
          | none => none
          | some ra =>
            match framerateArgs customParams with
            | none => none
            | some fa =>
              some (["ffmpeg", "-i", input] ++ va ++ aa ++ ra ++ fa ++ ["-y", output])
    else none
  else none

/-! ## Progress monitoring (`executeFFmpegWithProgress`)

The scanner goroutine of `executeFFmpegWithProgress` processes one
diagnostic line at a time with pure arithmetic; that per-line body is
embedded here.  Go's `float64` arithmetic on the finitely many parsed
decimal values is modelled exactly over `ℚ`. -/

/-- Result of processing one diagnostic line that matched the time
pattern. -/
structure ProgressUpdate where
  progressPercent : ℚ
  speed : ℚ
  eta : Option ℚ
deriving DecidableEq, Repr

/-- Match the regex `time=(\d\x7b2\x7d):(\d\x7b2\x7d):(\d\x7b2\x7d)\.(\d\x7b2\x7d)`
at the head of the list, returning hours, minutes, seconds, centiseconds. -/
def matchTimeAt : List Char → Option (Nat × Nat × Nat × Nat)
  | 't' :: 'i' :: 'm' :: 'e' :: '=' :: h1 :: h2 :: ':' :: m1 :: m2 :: ':' ::
      s1 :: s2 :: '.' :: c1 :: c2 :: _ =>
    if h1.isDigit && h2.isDigit && m1.isDigit && m2.isDigit && s1.isDigit &&
        s2.isDigit && c1.isDigit && c2.isDigit then
      some (natOfDigits [h1, h2], natOfDigits [m1, m2],
        natOfDigits [s1, s2], natOfDigits [c1, c2])
    else none
  | _ => none

/-- Leftmost match of the time pattern in a line
(`regexp.FindStringSubmatch`). -/
def findTimeMatch : List Char → Option (Nat × Nat × Nat × Nat)
  | [] => none
  | c :: rest =>
    match matchTimeAt (c :: rest) with
    | some r => some r
    | none => findTimeMatch rest

/-- The whitespace class of Go's regexp `\s` (RE2: tab, newline, form feed,
carriage return, space). -/
def isSpaceChar (c : Char) : Bool :=
  c = ' ' || c = '\t' || c = '\n' || c = '\x0c' || c = '\r'

/-- Match the regex `speed=\s*([0-9.]+)x` at the head of the list, returning
the captured `[0-9.]+` run.  Maximal munch is equivalent to the regex here
because a shortened run would leave a digit or dot where `x` is required. -/
def matchSpeedAt (l : List Char) : Option (List Char) :=
  match l with
  | 's' :: 'p' :: 'e' :: 'e' :: 'd' :: '=' :: rest =>
    let rest2 := rest.dropWhile isSpaceChar
    let run := rest2.takeWhile (fun c => c.isDigit || c = '.')
    if run.isEmpty then none
    else
      match rest2.dropWhile (fun c => c.isDigit || c = '.') with
      | 'x' :: _ => some run
      | _ => none
  | _ => none

/-- Leftmost match of the speed pattern in a line. -/
def findSpeedMatch : List Char → Option (List Char)
  | [] => none
  | c :: rest =>
    match matchSpeedAt (c :: rest) with
    | some r => some r
    | none => findSpeedMatch rest

/-- Exact model of `strconv.ParseFloat` restricted to `[0-9.]+` inputs:
`d+`, `d+.d*` and `.d+` parse to their decimal value, anything else (no
digits, or a second dot) is a syntax error. -/
def parseDecimal (l : List Char) : Option ℚ :=
  let i := l.takeWhile isDigitChar
  match l.dropWhile isDigitChar with
  | [] => if i.isEmpty then none else some (natOfDigits i)
  | '.' :: rest =>
    let f := rest.takeWhile isDigitChar
    if !(rest.dropWhile isDigitChar).isEmpty then none
    else if i.isEmpty && f.isEmpty then none
    else some ((natOfDigits i : ℚ) + (natOfDigits f : ℚ) / (10 ^ f.length : ℚ))
  | _ => none

/-- The per-line body of the scanner goroutine in
`executeFFmpegWithProgress`: no time match means no update; otherwise the
percentage is clamped above at 100, the speed defaults to `0` when absent
or unparseable, and the ETA `(total - current) / speed` is attached only
when `speed > 0` and `current < total`. -/
def processProgressLine (totalSeconds : ℚ) (line : String) : Option ProgressUpdate :=
  match findTimeMatch line.toList with
  | none => none
  | some (h, m, s, c) =>
    let currentSeconds : ℚ := ((h * 3600 + m * 60 + s : Nat) : ℚ) + (c : ℚ) / 100
    let raw : ℚ := currentSeconds / totalSeconds * 100
    let progressPercent := if 100 < raw then 100 else raw
    let speed : ℚ :=
      match findSpeedMatch line.toList with
      | some run => (parseDecimal run).getD 0
      | none => 0
    let eta : Option ℚ :=
      if 0 < speed ∧ currentSeconds < totalSeconds then
        some ((totalSeconds - currentSeconds) / speed)
      else none
    some ⟨progressPercent, speed, eta⟩

/-! ## ConvertVideoWithCustomParams (`transcoder.go`)

The entry point performs I/O (an existence check, the ffprobe run, the
ffmpeg spawn).  The filesystem and prober are abstracted into an
environment; the function returns its outcome together with the ordered
trace of external effects it performed, so that "before any security
validation / probe / spawn" is a statement about the trace. -/

/-- Abstraction of the ambient world: whether `os.Stat` finds the input
file, and what `analyzer.AnalyzeMedia` would return (`none` = probe
failure). -/
structure Env where
  inputExists : Bool
  probeResult : Option MediaInfo
deriving DecidableEq, Repr

/-- The external effects `ConvertVideoWithCustomParams` can perform, in
order of first occurrence. -/
inductive Event where
  | statInput
  | securityValidation
  | probe
  | spawn
deriving DecidableEq, Repr

/-- The distinct failure exits of `ConvertVideoWithCustomParams`. -/
inductive ConvertError where
  | inputNotFound
  | unsupportedOutputFormat
  | securityViolation
  | probeFailed
  | buildFailed
deriving DecidableEq, Repr

/-- Outcome of `ConvertVideoWithCustomParams`: an error return, or the
command handed to step 9. -/
inductive ConvertResult where
  | err : ConvertError → ConvertResult
  | okCmd : List String → ConvertResult
deriving DecidableEq, Repr

/-- Whether all the step-4 custom-parameter validations of
`ConvertVideoWithCustomParams` succeed. -/
def customParamsValid (cp : CustomParameters) : Bool :=
  (cp.videoCodec = "" || ValidateCodec cp.videoCodec "video" = Verdict.ok) &&
  (cp.audioCodec = "" || ValidateCodec cp.audioCodec "audio" = Verdict.ok) &&
  ValidateBitrate cp.videoBitrate = Verdict.ok &&
  ValidateBitrate cp.audioBitrate = Verdict.ok &&
  ValidateResolution cp.resolution = Verdict.ok &&
  ValidateFramerate cp.framerate = Verdict.ok

/-- `ConvertVideoWithCustomParams` from `transcoder.go`, steps 1-8, with the
step-9 execution abstracted into a `spawn` event carrying the built command
as the success value.  The step order is the source's: existence check,
output-format check against `SupportedFormats`, security validation of both
paths and the output format, step-4 custom-parameter validation (only when
`customParamsSet`), the probe, codec selection, preset-bitrate defaulting,
command building, spawn. -/
def convertVideoWithCustomParams (env : Env) (inputPath outputPath preset : String)
    (presetExplicit customParamsSet : Bool) (customParams : CustomParameters) :
    ConvertResult × List Event :=
  if !env.inputExists then (.err .inputNotFound, [.statInput])
  else
    let outputFormat := getFormatFromPath outputPath
    if !supportedFormats.contains outputFormat then
      (.err .unsupportedOutputFormat, [.statInput])
    else
      let tr := [Event.statInput, Event.securityValidation]
      if ValidateFilePath inputPath ≠ Verdict.ok then (.err .securityViolation, tr)
      else if ValidateFilePath outputPath ≠ Verdict.ok then (.err .securityViolation, tr)
      else if ValidateFileFormat outputPath ≠ Verdict.ok then (.err .securityViolation, tr)
      else if customParamsSet && !customParamsValid customParams then
        (.err .securityViolation, tr)
      else
        let tr := tr ++ [Event.probe]
        match env.probeResult with
        | none => (.err .probeFailed, tr)
        | some inputInfo =>
          let sel := selectCodecsWithCustomParamsSecure inputInfo outputFormat
            preset presetExplicit customParamsSet customParams
          let secureParams : CustomParameters :=
            { customParams with
              videoBitrate :=
                if !customParamsSet || customParams.videoBitrate = "" then
                  getPresetVideoBitrate preset
                else customParams.videoBitrate
              audioBitrate :=
                if !customParamsSet || customParams.audioBitrate = "" then
                  getPresetAudioBitrate preset
                else customParams.audioBitrate }
          match buildFFmpegCommandWithCustomParams inputPath outputPath sel.1
            sel.2.1 preset secureParams with
          | none => (.err .buildFailed, tr)
          | some cmd => (.okCmd cmd, tr ++ [Event.spawn])

/-! ## Shared lemmas -/

/-- A deny-listed character in the input makes `containsDangerousChars`
true. -/
theorem containsDangerousChars_of_mem {s : String} {c : Char}
    (hc : c ∈ s.toList) (hd : c ∈ dangerousChars) :
    containsDangerousChars s = true := by
  simp only [containsDangerousChars, List.any_eq_true]
  exact ⟨c, hc, by simpa using hd⟩

/-- A path-deny-listed character in the input makes
`containsPathDangerousChars` true. -/
theorem containsPathDangerousChars_of_mem {s : String} {c : Char}
    (hc : c ∈ s.toList) (hd : c ∈ pathDangerousChars) :
    containsPathDangerousChars s = true := by
  simp only [containsPathDangerousChars, List.any_eq_true]
  exact ⟨c, hc, by simpa using hd⟩

/-! ## Claims -/

/-- Claim C2 (amended): every string containing a character of the full deny
list `; & | \x60 $ ( ) \x7b \x7d [ ] < > \ \x22 \x27 NL CR TAB` is rejected
by `ValidateCodec` (for both kinds), `ValidateBitrate`, `ValidateResolution`
and `ValidateFramerate`; `ValidateFilePath`, however, rejects on character
grounds only for its own smaller deny list `; & | \x60 $ \x22 \x27 NL CR
TAB`, so the claim's inclusion of `ValidateFilePath` under the full list is
false (see the counterexample). -/
theorem c2_deny_set_amended (s : String) (c : Char) (hc : c ∈ s.toList) :
    (c ∈ dangerousChars →
      ValidateCodec s "video" ≠ Verdict.ok ∧ ValidateCodec s "audio" ≠ Verdict.ok ∧
      ValidateBitrate s ≠ Verdict.ok ∧ ValidateResolution s ≠ Verdict.ok ∧
      ValidateFramerate s ≠ Verdict.ok) ∧
    (c ∈ pathDangerousChars → ValidateFilePath s ≠ Verdict.ok) := by
  constructor
  · intro hd
    have hdc := containsDangerousChars_of_mem hc hd
    have hne : s ≠ "" := by
      intro h
      subst h
      simp at hc
    refine ⟨?_, ?_, ?_, ?_, ?_⟩ <;>
      simp only [ValidateCodec, ValidateBitrate, ValidateResolution,
        ValidateFramerate, hdc, hne, if_false, if_true] <;>
      split_ifs <;> simp_all
  · intro hd
    have hdc := containsPathDangerousChars_of_mem hc hd
    simp only [ValidateFilePath, hdc]
    split_ifs <;> simp_all

/-- Claim C2, counterexample to the claim as stated: `(` is on the full deny
list, yet `ValidateFilePath` accepts the string `"("`. -/
theorem c2_deny_set_cex :
    '\x28' ∈ dangerousChars ∧ '\x28' ∈ "(".toList ∧
      ValidateFilePath "(" = Verdict.ok := by
  decide

/-- Claim C2, witness: the amended theorem applied to the string `";"`. -/
theorem c2_deny_set_witness :
    ValidateCodec ";" "video" ≠ Verdict.ok ∧ ValidateFilePath ";" ≠ Verdict.ok := by
  have h := c2_deny_set_amended ";" ';' (by decide)
  exact ⟨(h.1 (by decide)).1, h.2 (by decide)⟩

/-- Claim C3: `ValidateCodec` succeeds exactly on whitelist members of its
kind; whitelisted values with leading or trailing whitespace fail. -/
theorem c3_codec_whitelist (codec : String) :
    (ValidateCodec codec "video" = Verdict.ok ↔ codec ∈ allowedVideoCodecs) ∧
    (ValidateCodec codec "audio" = Verdict.ok ↔ codec ∈ allowedAudioCodecs) ∧
    ValidateCodec " copy" "video" = Verdict.notAllowed ∧
    ValidateCodec "copy " "video" = Verdict.notAllowed ∧
    ValidateCodec " aac" "audio" = Verdict.notAllowed ∧
    ValidateCodec "aac " "audio" = Verdict.notAllowed := by
  refine ⟨⟨fun h => ?_, fun h => ?_⟩, ⟨fun h => ?_, fun h => ?_⟩, ?_, ?_, ?_, ?_⟩ <;>
    first
    | decide
    | (first
        | (simp only [ValidateCodec] at h
           split_ifs at h <;> simp_all)
        | (fin_cases h <;> decide))

/-- Claim C7 (amended): `ValidateFilePath` rejects paths longer than 255
characters; within that length it returns the traversal verdict exactly when
the cleaned path contains `..` as a *substring* — not exactly when a `..`
*segment* remains after normalization, which is what the claim states (see
the counterexample `"a..b"`); the concrete examples of the claim hold. -/
theorem c7_file_path_amended (p : String) :
    (MaxPathLength < p.toList.length → ValidateFilePath p = Verdict.tooLong) ∧
    (p.toList.length ≤ MaxPathLength →
      (ValidateFilePath p = Verdict.traversal ↔ hasDotDot (filepathClean p) = true)) ∧
    ValidateFilePath "../../etc/passwd" = Verdict.traversal ∧
    ValidateFilePath "clip.mp4" = Verdict.ok := by
  refine ⟨fun h => ?_, fun h => ?_, by decide, by decide⟩
  · have h2 : MaxPathLength < p.length := by simpa using h
    simp [ValidateFilePath, h2]
  · simp only [ValidateFilePath, Nat.not_lt.mpr h, if_false]
    split_ifs <;> simp_all

/-- Claim C7, counterexample to the claim as stated: `"a..b"` cleans to
itself, whose only segment is `a..b` — no `..` segment remains after
normalization — yet `ValidateFilePath` returns the traversal verdict,
because the source checks for `..` as a substring of the cleaned path. -/
theorem c7_file_path_cex :
    ValidateFilePath "a..b" = Verdict.traversal ∧
      cleanSegments "a..b" = [['a', '.', '.', 'b']] ∧
      ['.', '.'] ∉ cleanSegments "a..b" := by
  decide

set_option maxRecDepth 4000 in
/-- Claim C7, witness: the amended theorem applied to a 256-character path
and to `"a/../../b"`. -/
theorem c7_file_path_witness :
    ValidateFilePath (String.mk (List.replicate 256 'a')) = Verdict.tooLong ∧
      ValidateFilePath "a/../../b" = Verdict.traversal := by
  constructor
  · exact (c7_file_path_amended (String.mk (List.replicate 256 'a'))).1
      (by simp [MaxPathLength])
  · exact ((c7_file_path_amended "a/../../b").2.1 (by decide)).mpr (by decide)

/-- Digits are never on the deny list. -/
theorem digit_not_dangerous {c : Char} (h : c ∈ dangerousChars) : c.isDigit = false := by
  fin_cases h <;> decide

/-- A string accepted by the resolution grammar consists of digits and `x`
only, hence contains no deny-listed character. -/
theorem matchResolution_no_dangerous {l : List Char} {w h : Nat}
    (hm : matchResolution l = some (w, h)) :
    l.any (fun c => dangerousChars.contains c) = false := by
  simp only [matchResolution] at hm
  split at hm
  case h_2 => exact absurd hm (by simp)
  case h_1 rest heq =>
    split_ifs at hm with hcond
    have hrestEmpty : rest.dropWhile isDigitChar = [] := by
      by_contra hne
      exact hcond (by simp [List.isEmpty_iff, hne])
    simp only [List.any_eq_false]
    intro c hcmem hcontains
    have hcdang : c ∈ dangerousChars := by simpa using hcontains
    have hcnotdigit := digit_not_dangerous hcdang
    have hcnotx : c ≠ 'x' := by
      intro he
      subst he
      exact absurd hcdang (by decide)
    have hsplit : l.takeWhile isDigitChar ++ l.dropWhile isDigitChar = l :=
      List.takeWhile_append_dropWhile isDigitChar l
    rw [heq] at hsplit
    rw [hsplit.symm] at hcmem
    rcases List.mem_append.mp hcmem with hc1 | hc2
    · exact absurd (List.mem_takeWhile_imp hc1) (by simp [isDigitChar, hcnotdigit])
    · rcases List.mem_cons.mp hc2 with he | hc3
      · exact hcnotx he
      · have hrs : rest.takeWhile isDigitChar ++ rest.dropWhile isDigitChar = rest :=
          List.takeWhile_append_dropWhile isDigitChar rest
        rw [hrestEmpty, List.append_nil] at hrs
        rw [← hrs] at hc3
        exact absurd (List.mem_takeWhile_imp hc3) (by simp [isDigitChar, hcnotdigit])

/-- Claim C8 (amended): besides the stated grammar and bounds,
`ValidateResolution` also enforces the 50-character parameter-length limit,
so the claimed iff needs the extra length conjunct: a non-empty value is
accepted exactly when it is at most 50 characters long, matches
digits-`x`-digits, and its parsed width and height lie in [1,7680] and
[1,4320]; the claim's three concrete examples hold. -/
theorem c8_resolution_amended (v : String) :
    (ValidateResolution v = Verdict.ok ↔
      (v = "" ∨ (v.toList.length ≤ MaxParameterLength ∧
        ∃ w h, matchResolution v.toList = some (w, h) ∧
          1 ≤ w ∧ w ≤ 7680 ∧ 1 ≤ h ∧ h ≤ 4320))) ∧
    ValidateResolution "1920x1080" = Verdict.ok ∧
    ValidateResolution "99999x1" = Verdict.outOfRange ∧
    ValidateResolution "0x0" = Verdict.outOfRange := by
  refine ⟨⟨fun hv => ?_, fun hv => ?_⟩, by decide, by decide, by decide⟩
  · simp only [ValidateResolution] at hv
    split_ifs at hv with h1 h2 h3
    · exact Or.inl h1
    · split at hv
      · exact absurd hv (by simp)
      · rename_i w h hm
        split_ifs at hv with h4 h5
        push_neg at h4 h5
        exact Or.inr ⟨Nat.not_lt.mp h2, w, h, hm,
          by omega, by omega, by omega, by omega⟩
  · rcases hv with hv | ⟨hlen, w, h, hm, hw1, hw2, hh1, hh2⟩
    · subst hv; decide
    · have hne : v ≠ "" := by
        intro he
        subst he
        simp [matchResolution] at hm
      have hnd : containsDangerousChars v = false := by
        simpa [containsDangerousChars] using matchResolution_no_dangerous hm
      simp only [ValidateResolution, hne, if_false, Nat.not_lt.mpr hlen, hnd,
        Bool.false_eq_true, hm]
      split_ifs with h4 h5 <;> first | rfl | omega

/-- Claim C8, counterexample to the claim as stated: a 51-character value
consisting of a zero-padded `1x1` matches digits-`x`-digits with parsed
width 1 and height 1 — so the claimed iff promises success — yet
`ValidateResolution` rejects it with the length verdict. -/
theorem c8_resolution_cex :
    matchResolution
        "0000000000000000000000000000000000000000000000001x1".toList =
      some (1, 1) ∧
    "0000000000000000000000000000000000000000000000001x1".toList.length = 51 ∧
    ValidateResolution
        "0000000000000000000000000000000000000000000000001x1" =
      Verdict.tooLong := by
  decide

/-- The concrete `MediaInfo` of the claims' running example: one `h264`
video stream and one `aac` audio stream, ten seconds long. -/
def sampleH264AacInfo : MediaInfo :=
  ⟨"in.mp4", "mp4", 10, 0, 0,
   [⟨0, "h264", 1920, 1080, "30/1", "yuv420p", 0⟩],
   [⟨1, "aac", 44100, 2, 0, ""⟩]⟩

/-- Claim C4 (amended): with custom parameters set, when both custom codecs
are present they are returned verbatim with stream-copy disabled; otherwise
stream-copy is disabled, an unspecified codec resolves to the per-container
default, and the resulting codec is then passed through
`applyVideoPreset`/`applyAudioPreset`, which keep it only when it is one of
`libx264`, `libx265`, `libvpx-vp9`, `copy` (video) respectively `aac`,
`libopus`, `libmp3lame`, `libvorbis`, `flac`, `copy` (audio) and otherwise
replace it by `libx264`/`aac` — so the whitelisted user codecs `libvpx` and
`pcm_s16le` are NOT returned unchanged (see the counterexample); the
per-container defaults are as the claim lists them and always survive this
normalisation. -/
theorem c4_codec_selection_amended (inputInfo : MediaInfo)
    (outputFormat preset : String) (presetExplicit : Bool)
    (cp : CustomParameters) :
    (cp.videoCodec ≠ "" → cp.audioCodec ≠ "" →
      selectCodecsWithCustomParamsSecure inputInfo outputFormat preset
          presetExplicit true cp =
        (cp.videoCodec, cp.audioCodec, false)) ∧
    (¬(cp.videoCodec ≠ "" ∧ cp.audioCodec ≠ "") →
      selectCodecsWithCustomParamsSecure inputInfo outputFormat preset
          presetExplicit true cp =
        (applyVideoPreset
          (if cp.videoCodec = "" then (getDefaultCodecs outputFormat).1
           else cp.videoCodec) preset,
         applyAudioPreset
          (if cp.audioCodec = "" then (getDefaultCodecs outputFormat).2
           else cp.audioCodec) preset, false)) ∧
    (∀ c, applyVideoPreset c preset =
      if c = "libx264" ∨ c = "libx265" ∨ c = "libvpx-vp9" ∨ c = "copy" then c
      else "libx264") ∧
    (∀ c, applyAudioPreset c preset =
      if c = "aac" ∨ c = "libopus" ∨ c = "libmp3lame" ∨ c = "libvorbis" ∨
          c = "flac" ∨ c = "copy" then c
      else "aac") ∧
    getDefaultCodecs "mp4" = ("libx264", "aac") ∧
    getDefaultCodecs "mov" = ("libx264", "aac") ∧
    getDefaultCodecs "mkv" = ("libx264", "aac") ∧
    getDefaultCodecs "webm" = ("libvpx-vp9", "libopus") ∧
    getDefaultCodecs "avi" = ("libx264", "libmp3lame") := by
  refine ⟨fun hv ha => ?_, fun hya => ?_, fun c => ?_, fun c => ?_,
    by decide, by decide, by decide, by decide, by decide⟩
  · simp [selectCodecsWithCustomParamsSecure, hv, ha]
  · have : ¬(cp.videoCodec ≠ "" && cp.audioCodec ≠ "") = true := by
      simpa [Bool.and_eq_true] using hya
    simp only [selectCodecsWithCustomParamsSecure, this, if_false]
    simp
  · simp only [applyVideoPreset]
    split_ifs <;> simp_all
  · simp only [applyAudioPreset]
    split_ifs <;> simp_all

/-- Claim C4, counterexample to the claim as stated: `libvpx` passes the
video-codec validator, yet when supplied as the only custom codec (audio
unspecified, custom parameters set) the selector returns `libx264`, not the
user's codec. -/
theorem c4_codec_selection_cex :
    ValidateCodec "libvpx" "video" = Verdict.ok ∧
    selectCodecsWithCustomParamsSecure sampleH264AacInfo "mp4" "medium" false
        true ⟨"libvpx", "", "", "", "", ""⟩ = ("libx264", "aac", false) ∧
    ("libx264", "aac", false).1 ≠ "libvpx" := by
  decide

/-- Claim C4, witness: both branches of the amended theorem at concrete
inputs. -/
theorem c4_codec_selection_witness :
    selectCodecsWithCustomParamsSecure sampleH264AacInfo "mp4" "medium" false
        true ⟨"libx265", "flac", "", "", "", ""⟩ = ("libx265", "flac", false) ∧
    selectCodecsWithCustomParamsSecure sampleH264AacInfo "webm" "medium" false
        true ⟨"", "", "2M", "", "", ""⟩ = ("libvpx-vp9", "libopus", false) := by
  constructor
  · exact (c4_codec_selection_amended sampleH264AacInfo "mp4" "medium" false
      ⟨"libx265", "flac", "", "", "", ""⟩).1 (by decide) (by decide)
  · have h := (c4_codec_selection_amended sampleH264AacInfo "webm" "medium" false
      ⟨"", "", "2M", "", "", ""⟩).2.1 (by simp)
    simpa using h


/-- Characterisation of `canUseStreamCopy`: the input needs a first video
and a first audio stream whose codecs satisfy the per-container
compatibility table (`mkv` accepts anything). -/
theorem canUseStreamCopy_iff (mi : MediaInfo) (fmt : String) :
    canUseStreamCopy mi fmt = true ↔
      (∃ v vs, mi.videoStreams = v :: vs ∧ ∃ a as0, mi.audioStreams = a :: as0 ∧
        ((fmt = "mp4" ∨ fmt = "mov") ∧
            isCompatibleCodec v.codec ["h264", "hevc"] = true ∧
            isCompatibleCodec a.codec ["aac", "mp3"] = true ∨
         fmt = "webm" ∧
            isCompatibleCodec v.codec ["vp8", "vp9", "av1"] = true ∧
            isCompatibleCodec a.codec ["vorbis", "opus"] = true ∨
         fmt = "mkv" ∨
         fmt = "avi" ∧
            isCompatibleCodec v.codec ["h264", "xvid", "divx"] = true ∧
            isCompatibleCodec a.codec ["mp3", "ac3"] = true)) := by
  rcases hv : mi.videoStreams with _ | ⟨v, vs⟩ <;>
    rcases ha : mi.audioStreams with _ | ⟨a, as0⟩ <;>
      simp only [canUseStreamCopy, hv, ha] <;>
      try simp
  by_cases h1 : fmt = "mp4" <;> by_cases h2 : fmt = "mov" <;>
    by_cases h3 : fmt = "webm" <;> by_cases h4 : fmt = "mkv" <;>
      by_cases h5 : fmt = "avi" <;> simp_all

/-- Claim C5: with no custom parameters, the selector returns
stream-copy = true exactly when the preset was not explicitly requested and
the input has a first video and first audio stream compatible with the
target container per the fixed table; the h264/aac-to-mp4 example yields
stream copy without an explicit preset and re-encoding with one. -/
theorem c5_stream_copy (mi : MediaInfo) (outputFormat preset : String)
    (presetExplicit : Bool) :
    ((selectCodecsWithCustomParamsSecure mi outputFormat preset presetExplicit
        false emptyParams).2.2 = true ↔
      (presetExplicit = false ∧
        ∃ v vs, mi.videoStreams = v :: vs ∧ ∃ a as0, mi.audioStreams = a :: as0 ∧
          ((outputFormat = "mp4" ∨ outputFormat = "mov") ∧
              isCompatibleCodec v.codec ["h264", "hevc"] = true ∧
              isCompatibleCodec a.codec ["aac", "mp3"] = true ∨
           outputFormat = "webm" ∧
              isCompatibleCodec v.codec ["vp8", "vp9", "av1"] = true ∧
              isCompatibleCodec a.codec ["vorbis", "opus"] = true ∨
           outputFormat = "mkv" ∨
           outputFormat = "avi" ∧
              isCompatibleCodec v.codec ["h264", "xvid", "divx"] = true ∧
              isCompatibleCodec a.codec ["mp3", "ac3"] = true))) ∧
    selectCodecsWithCustomParamsSecure sampleH264AacInfo "mp4" "medium" false
        false emptyParams = ("copy", "copy", true) ∧
    selectCodecsWithCustomParamsSecure sampleH264AacInfo "mp4" "medium" true
        false emptyParams = ("libx264", "aac", false) := by
  refine ⟨?_, by decide, by decide⟩
  have hsel : selectCodecsWithCustomParamsSecure mi outputFormat preset
      presetExplicit false emptyParams =
      selectCodecs mi outputFormat preset presetExplicit := by
    simp [selectCodecsWithCustomParamsSecure, emptyParams]
  rw [hsel]
  have h2 : (selectCodecs mi outputFormat preset presetExplicit).2.2 = true ↔
      (canUseStreamCopy mi outputFormat = true ∧ presetExplicit = false) := by
    simp only [selectCodecs]
    split_ifs with h
    · simp_all
    · simp_all
  rw [h2, canUseStreamCopy_iff]
  exact And.comm


/-- The exact success condition of the video section of the builder. -/
def videoPass (vc : String) (cp : CustomParameters) : Prop :=
  vc = "copy" ∨ (ValidateCodec vc "video" = Verdict.ok ∧
    (cp.videoBitrate ≠ "" → ValidateBitrate cp.videoBitrate = Verdict.ok))

/-- The exact success condition of the audio section of the builder. -/
def audioPass (ac : String) (cp : CustomParameters) : Prop :=
  ac = "copy" ∨ (ValidateCodec ac "audio" = Verdict.ok ∧
    (cp.audioBitrate ≠ "" → ValidateBitrate cp.audioBitrate = Verdict.ok))

/-- The video arguments emitted on success. -/
def videoVec (vc : String) (cp : CustomParameters) : List String :=
  if vc = "copy" then ["-c:v", "copy"]
  else if cp.videoBitrate = "" then ["-c:v", vc]
  else ["-c:v", vc, "-b:v", cp.videoBitrate]

/-- The audio arguments emitted on success. -/
def audioVec (ac : String) (cp : CustomParameters) : List String :=
  if ac = "copy" then ["-c:a", "copy"]
  else if cp.audioBitrate = "" then ["-c:a", ac]
  else ["-c:a", ac, "-b:a", cp.audioBitrate]

/-- `videoArgs` succeeds with the expected arguments exactly on
`videoPass`. -/
theorem videoArgs_eq_iff (vc : String) (cp : CustomParameters) :
    (videoPass vc cp → videoArgs vc cp = some (videoVec vc cp)) ∧
    (¬videoPass vc cp → videoArgs vc cp = none) := by
  constructor
  · intro h
    rcases h with h | ⟨h1, h2⟩
    · simp [videoArgs, videoVec, h]
    · by_cases hc : vc = "copy"
      · simp [videoArgs, videoVec, hc]
      · by_cases hb : cp.videoBitrate = ""
        · simp [videoArgs, videoVec, hc, hb, h1]
        · simp [videoArgs, videoVec, hc, hb, h1, h2 hb]
  · intro h
    simp only [videoPass, not_or, not_and, Classical.not_imp] at h
    obtain ⟨hc, h2⟩ := h
    by_cases h1 : ValidateCodec vc "video" = Verdict.ok
    · obtain ⟨hb, hbr⟩ := h2 h1
      simp [videoArgs, hc, h1, hb, hbr]
    · simp [videoArgs, hc, h1]

/-- `audioArgs` succeeds with the expected arguments exactly on
`audioPass`. -/
theorem audioArgs_eq_iff (ac : String) (cp : CustomParameters) :
    (audioPass ac cp → audioArgs ac cp = some (audioVec ac cp)) ∧
    (¬audioPass ac cp → audioArgs ac cp = none) := by
  constructor
  · intro h
    rcases h with h | ⟨h1, h2⟩
    · simp [audioArgs, audioVec, h]
    · by_cases hc : ac = "copy"
      · simp [audioArgs, audioVec, hc]
      · by_cases hb : cp.audioBitrate = ""
        · simp [audioArgs, audioVec, hc, hb, h1]
        · simp [audioArgs, audioVec, hc, hb, h1, h2 hb]
  · intro h
    simp only [audioPass, not_or, not_and, Classical.not_imp] at h
    obtain ⟨hc, h2⟩ := h
    by_cases h1 : ValidateCodec ac "audio" = Verdict.ok
    · obtain ⟨hb, hbr⟩ := h2 h1
      simp [audioArgs, hc, h1, hb, hbr]
    · simp [audioArgs, hc, h1]

/-- All the defensive re-checks of the builder at once. -/
def builderPass (input output vc ac : String) (cp : CustomParameters) : Prop :=
  ValidateFilePath input = Verdict.ok ∧ ValidateFilePath output = Verdict.ok ∧
  videoPass vc cp ∧ audioPass ac cp ∧
  (cp.resolution ≠ "" → ValidateResolution cp.resolution = Verdict.ok) ∧
  (cp.framerate ≠ "" → ValidateFramerate cp.framerate = Verdict.ok)

/-- Claim C6: when every defensive re-check passes, the builder produces
exactly the ordered vector `ffmpeg -i input`, `-c:v copy` or
`-c:v codec [-b:v bitrate]`, `-c:a copy` or `-c:a codec [-b:a bitrate]`,
`[-s resolution]`, `[-r framerate]`, `-y output`; when any re-check fails,
no command is returned. -/
theorem c6_command_vector (input output videoCodec audioCodec preset : String)
    (cp : CustomParameters) :
    (builderPass input output videoCodec audioCodec cp →
      buildFFmpegCommandWithCustomParams input output videoCodec audioCodec
          preset cp =
        some (["ffmpeg", "-i", input] ++ videoVec videoCodec cp ++
          audioVec audioCodec cp ++
          (if cp.resolution = "" then [] else ["-s", cp.resolution]) ++
          (if cp.framerate = "" then [] else ["-r", cp.framerate]) ++
          ["-y", output])) ∧
    (¬builderPass input output videoCodec audioCodec cp →
      buildFFmpegCommandWithCustomParams input output videoCodec audioCodec
          preset cp = none) := by
  constructor
  · rintro ⟨hin, hout, hv, ha, hr, hf⟩
    have hva := (videoArgs_eq_iff videoCodec cp).1 hv
    have haa := (audioArgs_eq_iff audioCodec cp).1 ha
    have hra : resolutionArgs cp =
        some (if cp.resolution = "" then [] else ["-s", cp.resolution]) := by
      by_cases h0 : cp.resolution = "" <;> simp [resolutionArgs, h0, hr]
    have hfa : framerateArgs cp =
        some (if cp.framerate = "" then [] else ["-r", cp.framerate]) := by
      by_cases h0 : cp.framerate = "" <;> simp [framerateArgs, h0, hf]
    simp [buildFFmpegCommandWithCustomParams, hin, hout, hva, haa, hra, hfa]
  · intro h
    by_cases hin : ValidateFilePath input = Verdict.ok
    case neg => simp [buildFFmpegCommandWithCustomParams, hin]
    by_cases hout : ValidateFilePath output = Verdict.ok
    case neg => simp [buildFFmpegCommandWithCustomParams, hin, hout]
    by_cases hv : videoPass videoCodec cp
    case neg =>
      simp [buildFFmpegCommandWithCustomParams, hin, hout,
        (videoArgs_eq_iff videoCodec cp).2 hv]
    by_cases ha : audioPass audioCodec cp
    case neg =>
      simp [buildFFmpegCommandWithCustomParams, hin, hout,
        (videoArgs_eq_iff videoCodec cp).1 hv,
        (audioArgs_eq_iff audioCodec cp).2 ha]
    by_cases hr : cp.resolution ≠ "" ∧ ValidateResolution cp.resolution ≠ Verdict.ok
    case pos =>
      simp [buildFFmpegCommandWithCustomParams, hin, hout,
        (videoArgs_eq_iff videoCodec cp).1 hv,
        (audioArgs_eq_iff audioCodec cp).1 ha,
        resolutionArgs, hr.1, hr.2]
    by_cases hf : cp.framerate ≠ "" ∧ ValidateFramerate cp.framerate ≠ Verdict.ok
    case pos =>
      have hra : resolutionArgs cp =
          some (if cp.resolution = "" then [] else ["-s", cp.resolution]) := by
        rcases not_and_or.mp hr with h0 | h0
        · simp only [ne_eq, not_not] at h0
          simp [resolutionArgs, h0]
        · simp only [ne_eq, not_not] at h0
          by_cases h1 : cp.resolution = "" <;> simp [resolutionArgs, h1, h0]
      simp [buildFFmpegCommandWithCustomParams, hin, hout,
        (videoArgs_eq_iff videoCodec cp).1 hv,
        (audioArgs_eq_iff audioCodec cp).1 ha, hra,
        framerateArgs, hf.1, hf.2]
    case neg =>
      exfalso
      apply h
      refine ⟨hin, hout, hv, ha, ?_, ?_⟩
      · intro h0
        by_contra h1
        exact hr ⟨h0, h1⟩
      · intro h0
        by_contra h1
        exact hf ⟨h0, h1⟩

/-- Claim C6, witness: the positive branch at a fully validated input and
the negative branch at a rejected codec. -/
theorem c6_command_vector_witness :
    buildFFmpegCommandWithCustomParams "in.mp4" "out.mp4" "libx264" "aac"
        "medium" ⟨"", "", "2M", "192k", "1280x720", "30"⟩ =
      some ["ffmpeg", "-i", "in.mp4", "-c:v", "libx264", "-b:v", "2M",
        "-c:a", "aac", "-b:a", "192k", "-s", "1280x720", "-r", "30",
        "-y", "out.mp4"] ∧
    buildFFmpegCommandWithCustomParams "in.mp4" "out.mp4" "evil;codec" "aac"
        "medium" emptyParams = none := by
  constructor
  · have h := (c6_command_vector "in.mp4" "out.mp4" "libx264" "aac" "medium"
      ⟨"", "", "2M", "192k", "1280x720", "30"⟩).1
      (by refine ⟨by decide, by decide, Or.inr ⟨by decide, fun h0 => by decide⟩,
        Or.inr ⟨by decide, fun h0 => by decide⟩, fun h0 => by decide,
        fun h0 => by decide⟩)
    simpa [videoVec, audioVec] using h
  · have h := (c6_command_vector "in.mp4" "out.mp4" "evil;codec" "aac" "medium"
      emptyParams).2
      (by
        rintro ⟨-, -, hv, -⟩
        rcases hv with hv | ⟨hv, -⟩ <;> revert hv <;> decide)
    exact h


/-- Every path-deny-listed character is also on the full deny list. -/
theorem mem_path_mem_dangerous {c : Char} (h : c ∈ pathDangerousChars) :
    c ∈ dangerousChars := by
  fin_cases h <;> decide

/-- Freedom from the full deny list implies freedom from the path deny
list. -/
theorem no_dangerous_no_path {s : String}
    (h : containsDangerousChars s = false) :
    containsPathDangerousChars s = false := by
  simp only [containsDangerousChars, List.any_eq_false] at h
  simp only [containsPathDangerousChars, List.any_eq_false]
  intro c hc hcon
  exact h c hc (List.elem_iff.mpr (mem_path_mem_dangerous (List.elem_iff.mp hcon)))

/-- A codec accepted by `ValidateCodec` is free of deny-listed
characters. -/
theorem validateCodec_no_dangerous {c t : String}
    (h : ValidateCodec c t = Verdict.ok) : containsDangerousChars c = false := by
  simp only [ValidateCodec] at h
  split_ifs at h <;> simp_all

/-- A bitrate accepted by `ValidateBitrate` is free of deny-listed
characters. -/
theorem validateBitrate_no_dangerous {b : String}
    (h : ValidateBitrate b = Verdict.ok) : containsDangerousChars b = false := by
  simp only [ValidateBitrate] at h
  split_ifs at h with h1 <;> simp_all [containsDangerousChars]

/-- A resolution accepted by `ValidateResolution` is free of deny-listed
characters. -/
theorem validateResolution_no_dangerous {r : String}
    (h : ValidateResolution r = Verdict.ok) :
    containsDangerousChars r = false := by
  simp only [ValidateResolution] at h
  split_ifs at h with h1 <;> simp_all [containsDangerousChars]

/-- A framerate accepted by `ValidateFramerate` is free of deny-listed
characters. -/
theorem validateFramerate_no_dangerous {f : String}
    (h : ValidateFramerate f = Verdict.ok) :
    containsDangerousChars f = false := by
  simp only [ValidateFramerate] at h
  split_ifs at h with h1
  all_goals simp_all [containsDangerousChars]

/-- A path accepted by `ValidateFilePath` is free of path-deny-listed
characters. -/
theorem validateFilePath_no_path_dangerous {p : String}
    (h : ValidateFilePath p = Verdict.ok) :
    containsPathDangerousChars p = false := by
  simp only [ValidateFilePath] at h
  split_ifs at h
  all_goals simp_all

/-- Elements of a successful video section are flags, a validated video
codec, or a validated bitrate. -/
theorem videoArgs_mem {vc : String} {cp : CustomParameters} {va : List String}
    (h : videoArgs vc cp = some va) :
    ∀ arg ∈ va, arg = "-c:v" ∨ arg = "-b:v" ∨
      ValidateCodec arg "video" = Verdict.ok ∨ ValidateBitrate arg = Verdict.ok := by
  intro arg harg
  simp only [videoArgs] at h
  split_ifs at h with h1 h2 h3 h4
  · obtain rfl := Option.some.inj h
    simp only [List.mem_cons, List.not_mem_nil, or_false] at harg
    rcases harg with rfl | rfl
    · exact Or.inl rfl
    · exact Or.inr (Or.inr (Or.inl (by decide)))
  · obtain rfl := Option.some.inj h
    simp only [List.mem_cons, List.not_mem_nil, or_false] at harg
    rcases harg with rfl | rfl
    · exact Or.inl rfl
    · exact Or.inr (Or.inr (Or.inl h2))
  · obtain rfl := Option.some.inj h
    simp only [List.mem_cons, List.not_mem_nil, or_false] at harg
    rcases harg with rfl | rfl | rfl | rfl
    · exact Or.inl rfl
    · exact Or.inr (Or.inr (Or.inl h2))
    · exact Or.inr (Or.inl rfl)
    · exact Or.inr (Or.inr (Or.inr h4))

/-- Elements of a successful audio section are flags, a validated audio
codec, or a validated bitrate. -/
theorem audioArgs_mem {ac : String} {cp : CustomParameters} {aa : List String}
    (h : audioArgs ac cp = some aa) :
    ∀ arg ∈ aa, arg = "-c:a" ∨ arg = "-b:a" ∨
      ValidateCodec arg "audio" = Verdict.ok ∨ ValidateBitrate arg = Verdict.ok := by
  intro arg harg
  simp only [audioArgs] at h
  split_ifs at h with h1 h2 h3 h4
  · obtain rfl := Option.some.inj h
    simp only [List.mem_cons, List.not_mem_nil, or_false] at harg
    rcases harg with rfl | rfl
    · exact Or.inl rfl
    · exact Or.inr (Or.inr (Or.inl (by decide)))
  · obtain rfl := Option.some.inj h
    simp only [List.mem_cons, List.not_mem_nil, or_false] at harg
    rcases harg with rfl | rfl
    · exact Or.inl rfl
    · exact Or.inr (Or.inr (Or.inl h2))
  · obtain rfl := Option.some.inj h
    simp only [List.mem_cons, List.not_mem_nil, or_false] at harg
    rcases harg with rfl | rfl | rfl | rfl
    · exact Or.inl rfl
    · exact Or.inr (Or.inr (Or.inl h2))
    · exact Or.inr (Or.inl rfl)
    · exact Or.inr (Or.inr (Or.inr h4))

/-- Elements of a successful resolution section. -/
theorem resolutionArgs_mem {cp : CustomParameters} {ra : List String}
    (h : resolutionArgs cp = some ra) :
    ∀ arg ∈ ra, arg = "-s" ∨ ValidateResolution arg = Verdict.ok := by
  intro arg harg
  simp only [resolutionArgs] at h
  split_ifs at h with h1 h2
  · obtain rfl := Option.some.inj h
    simp at harg
  · obtain rfl := Option.some.inj h
    simp only [List.mem_cons, List.not_mem_nil, or_false] at harg
    rcases harg with rfl | rfl
    · exact Or.inl rfl
    · exact Or.inr h2

/-- Elements of a successful framerate section. -/
theorem framerateArgs_mem {cp : CustomParameters} {fa : List String}
    (h : framerateArgs cp = some fa) :
    ∀ arg ∈ fa, arg = "-r" ∨ ValidateFramerate arg = Verdict.ok := by
  intro arg harg
  simp only [framerateArgs] at h
  split_ifs at h with h1 h2
  · obtain rfl := Option.some.inj h
    simp at harg
  · obtain rfl := Option.some.inj h
    simp only [List.mem_cons, List.not_mem_nil, or_false] at harg
    rcases harg with rfl | rfl
    · exact Or.inl rfl
    · exact Or.inr h2


/-- Claim C1 (amended): every element of a successfully built argument
vector is free of the *path* deny list `; & | \x60 $ \x22 \x27 NL CR TAB`;
every element other than the input and output paths is also free of the
full deny list; and every element is either a fixed literal of the builder
or a value that passed its corresponding validator.  The claim's stronger
statement — that *no* element carries any full-deny-list character — is
false, because `ValidateFilePath` admits paths containing
`( ) \x7b \x7d [ ] < > \` and those paths are placed in the vector verbatim
(see the counterexample). -/
theorem c1_argument_vector_amended (input output videoCodec audioCodec
    preset : String) (cp : CustomParameters) (L : List String)
    (hb : buildFFmpegCommandWithCustomParams input output videoCodec
      audioCodec preset cp = some L) :
    ∀ arg ∈ L,
      containsPathDangerousChars arg = false ∧
      (arg ≠ input → arg ≠ output → containsDangerousChars arg = false) ∧
      (arg ∈ (["ffmpeg", "-i", "-c:v", "-c:a", "-b:v", "-b:a", "-s", "-r",
          "-y", "copy"] : List String) ∨
        ((arg = input ∨ arg = output) ∧ ValidateFilePath arg = Verdict.ok) ∨
        ValidateCodec arg "video" = Verdict.ok ∨
        ValidateCodec arg "audio" = Verdict.ok ∨
        ValidateBitrate arg = Verdict.ok ∨
        ValidateResolution arg = Verdict.ok ∨
        ValidateFramerate arg = Verdict.ok) := by
  intro arg harg
  simp only [buildFFmpegCommandWithCustomParams] at hb
  split_ifs at hb with hin hout
  split at hb
  next => exact absurd hb (by simp)
  next va hva =>
  split at hb
  next => exact absurd hb (by simp)
  next aa haa =>
  split at hb
  next => exact absurd hb (by simp)
  next ra hra =>
  split at hb
  next => exact absurd hb (by simp)
  next fa hfa =>
  obtain rfl := Option.some.inj hb
  simp only [List.mem_append, List.mem_cons, List.not_mem_nil, or_false] at harg
  have lit : ∀ x : String,
      x ∈ (["ffmpeg", "-i", "-c:v", "-c:a", "-b:v", "-b:a", "-s", "-r", "-y",
        "copy"] : List String) →
      containsPathDangerousChars x = false ∧
      (x ≠ input → x ≠ output → containsDangerousChars x = false) := by
    intro x hx
    fin_cases hx <;> exact ⟨by decide, fun h1 h2 => by decide⟩
  have fromDang : ∀ x : String, containsDangerousChars x = false →
      containsPathDangerousChars x = false ∧
      (x ≠ input → x ≠ output → containsDangerousChars x = false) :=
    fun x hx => ⟨no_dangerous_no_path hx, fun h1 h2 => hx⟩
  rcases harg with (((((rfl | rfl | rfl) | hva2) | haa2) | hra2) | hfa2) | (rfl | rfl)
  · exact ⟨(lit "ffmpeg" (by decide)).1, (lit "ffmpeg" (by decide)).2,
      Or.inl (by decide)⟩
  · exact ⟨(lit "-i" (by decide)).1, (lit "-i" (by decide)).2,
      Or.inl (by decide)⟩
  · exact ⟨validateFilePath_no_path_dangerous hin,
      fun h1 h2 => absurd rfl h1, Or.inr (Or.inl ⟨Or.inl rfl, hin⟩)⟩
  · rcases videoArgs_mem hva arg hva2 with rfl | rfl | hc | hbr
    · exact ⟨(lit "-c:v" (by decide)).1, (lit "-c:v" (by decide)).2,
        Or.inl (by decide)⟩
    · exact ⟨(lit "-b:v" (by decide)).1, (lit "-b:v" (by decide)).2,
        Or.inl (by decide)⟩
    · exact ⟨(fromDang arg (validateCodec_no_dangerous hc)).1,
        (fromDang arg (validateCodec_no_dangerous hc)).2,
        Or.inr (Or.inr (Or.inl hc))⟩
    · exact ⟨(fromDang arg (validateBitrate_no_dangerous hbr)).1,
        (fromDang arg (validateBitrate_no_dangerous hbr)).2,
        Or.inr (Or.inr (Or.inr (Or.inr (Or.inl hbr))))⟩
  · rcases audioArgs_mem haa arg haa2 with rfl | rfl | hc | hbr
    · exact ⟨(lit "-c:a" (by decide)).1, (lit "-c:a" (by decide)).2,
        Or.inl (by decide)⟩
    · exact ⟨(lit "-b:a" (by decide)).1, (lit "-b:a" (by decide)).2,
        Or.inl (by decide)⟩
    · exact ⟨(fromDang arg (validateCodec_no_dangerous hc)).1,
        (fromDang arg (validateCodec_no_dangerous hc)).2,
        Or.inr (Or.inr (Or.inr (Or.inl hc)))⟩
    · exact ⟨(fromDang arg (validateBitrate_no_dangerous hbr)).1,
        (fromDang arg (validateBitrate_no_dangerous hbr)).2,
        Or.inr (Or.inr (Or.inr (Or.inr (Or.inl hbr))))⟩
  · rcases resolutionArgs_mem hra arg hra2 with rfl | hr
    · exact ⟨(lit "-s" (by decide)).1, (lit "-s" (by decide)).2,
        Or.inl (by decide)⟩
    · exact ⟨(fromDang arg (validateResolution_no_dangerous hr)).1,
        (fromDang arg (validateResolution_no_dangerous hr)).2,
        Or.inr (Or.inr (Or.inr (Or.inr (Or.inr (Or.inl hr)))))⟩
  · rcases framerateArgs_mem hfa arg hfa2 with rfl | hf
    · exact ⟨(lit "-r" (by decide)).1, (lit "-r" (by decide)).2,
        Or.inl (by decide)⟩
    · exact ⟨(fromDang arg (validateFramerate_no_dangerous hf)).1,
        (fromDang arg (validateFramerate_no_dangerous hf)).2,
        Or.inr (Or.inr (Or.inr (Or.inr (Or.inr (Or.inr hf)))))⟩
  · exact ⟨(lit "-y" (by decide)).1, (lit "-y" (by decide)).2,
      Or.inl (by decide)⟩
  · exact ⟨validateFilePath_no_path_dangerous hout,
      fun h1 h2 => absurd rfl h2, Or.inr (Or.inl ⟨Or.inr rfl, hout⟩)⟩

/-- Claim C1, counterexample to the claim as stated: the input path
`a(b).mp4` passes its validator (`ValidateFilePath`), every other field is
validated, and the built vector contains that path as an element — an
element carrying the deny-listed characters `(` and `)`. -/
theorem c1_argument_vector_cex :
    ValidateFilePath "a(b).mp4" = Verdict.ok ∧
    ValidateFilePath "out.mp4" = Verdict.ok ∧
    ValidateCodec "libx264" "video" = Verdict.ok ∧
    ValidateCodec "aac" "audio" = Verdict.ok ∧
    buildFFmpegCommandWithCustomParams "a(b).mp4" "out.mp4" "libx264" "aac"
        "medium" emptyParams =
      some ["ffmpeg", "-i", "a(b).mp4", "-c:v", "libx264", "-c:a", "aac",
        "-y", "out.mp4"] ∧
    "a(b).mp4" ∈ ["ffmpeg", "-i", "a(b).mp4", "-c:v", "libx264", "-c:a",
      "aac", "-y", "out.mp4"] ∧
    containsDangerousChars "a(b).mp4" = true := by
  decide

/-- Claim C1, witness: the amended theorem applied to a concrete built
vector and its input-path element. -/
theorem c1_argument_vector_witness :
    containsPathDangerousChars "in.mp4" = false ∧
      containsDangerousChars "libx264" = false := by
  have h := c1_argument_vector_amended "in.mp4" "out.mp4" "libx264" "aac"
    "medium" emptyParams
    ["ffmpeg", "-i", "in.mp4", "-c:v", "libx264", "-c:a", "aac", "-y",
      "out.mp4"] (by decide)
  exact ⟨(h "in.mp4" (by decide)).1,
    (h "libx264" (by decide)).2.1 (by decide) (by decide)⟩


/-- A successful match of the time pattern starts with the literal
`time=`. -/
theorem matchTimeAt_starts {l : List Char} {r : Nat × Nat × Nat × Nat}
    (h : matchTimeAt l = some r) :
    listStartsWith l ['t', 'i', 'm', 'e', '='] = true := by
  unfold matchTimeAt at h
  split at h
  · next =>
    simp [listStartsWith]
  · exact absurd h (by simp)

/-- A line on which the time pattern matches contains `time=` as a
substring. -/
theorem findTimeMatch_substr {l : List Char} {r : Nat × Nat × Nat × Nat}
    (h : findTimeMatch l = some r) :
    listContainsSub l ['t', 'i', 'm', 'e', '='] = true := by
  induction l with
  | nil => exact absurd h (by simp [findTimeMatch])
  | cons c rest ih =>
    unfold findTimeMatch at h
    unfold listContainsSub
    split at h
    · next hm => simp [matchTimeAt_starts hm]
    · simp [ih h]

/-- Claim C9: over the exact-rational model of the scanner's per-line body,
a line matching the `time=HH:MM:SS.cc` pattern yields progress
`(elapsed / total) * 100` clamped to `[0, 100]`, and an ETA of
`(total - elapsed) / speed` exactly when the parsed speed is positive and
`elapsed < total`, the ETA then being positive; the synthetic line
`time=00:00:05.00 speed=2.0x` against a 10-second duration yields 50%
progress, speed 2 and ETA 2.5 s; a line without a `time=` token yields no
update (and no error: the scanner simply skips it). -/
theorem c9_progress (total : ℚ) (line : String) (htotal : 0 < total) :
    (strContains line "time=" = false → processProgressLine total line = none) ∧
    (∀ h m s c, findTimeMatch line.toList = some (h, m, s, c) →
      ∃ u, processProgressLine total line = some u ∧
        u.progressPercent =
          min ((((h * 3600 + m * 60 + s : Nat) : ℚ) + (c : ℚ) / 100) /
            total * 100) 100 ∧
        0 ≤ u.progressPercent ∧ u.progressPercent ≤ 100 ∧
        (0 < u.speed →
          (((h * 3600 + m * 60 + s : Nat) : ℚ) + (c : ℚ) / 100) < total →
          u.eta = some ((total -
            ((((h * 3600 + m * 60 + s : Nat) : ℚ)) + (c : ℚ) / 100)) / u.speed) ∧
          ∀ e, u.eta = some e → 0 < e)) ∧
    processProgressLine 10 "time=00:00:05.00 speed=2.0x" =
      some ⟨50, 2, some (5 / 2)⟩ := by
  refine ⟨fun hnone => ?_, fun h m s c hm => ?_, ?_⟩
  · unfold processProgressLine
    cases hft : findTimeMatch line.toList with
    | none => rfl
    | some r =>
      simp only [strContains] at hnone
      have hsub := findTimeMatch_substr hft
      rw [show ("time=".toList) = ['t', 'i', 'm', 'e', '='] from rfl] at hnone
      rw [hnone] at hsub
      exact absurd hsub (by simp)
  · simp only [processProgressLine, hm]
    refine ⟨_, rfl, ?_, ?_, ?_, ?_⟩
    · show (if 100 < (((h * 3600 + m * 60 + s : Nat) : ℚ) + (c : ℚ) / 100) /
          total * 100 then (100 : ℚ)
        else (((h * 3600 + m * 60 + s : Nat) : ℚ) + (c : ℚ) / 100) /
          total * 100) = _
      rcases le_or_lt ((((h * 3600 + m * 60 + s : Nat) : ℚ) + (c : ℚ) / 100) /
          total * 100) 100 with hle | hlt
      · rw [if_neg (not_lt.mpr hle), min_eq_left hle]
      · rw [if_pos hlt, min_eq_right hlt.le]
    · show (0 : ℚ) ≤ if 100 < (((h * 3600 + m * 60 + s : Nat) : ℚ) +
          (c : ℚ) / 100) / total * 100 then (100 : ℚ)
        else (((h * 3600 + m * 60 + s : Nat) : ℚ) + (c : ℚ) / 100) / total * 100
      split_ifs with h0
      · norm_num
      · positivity
    · show (if 100 < (((h * 3600 + m * 60 + s : Nat) : ℚ) + (c : ℚ) / 100) /
          total * 100 then (100 : ℚ)
        else (((h * 3600 + m * 60 + s : Nat) : ℚ) + (c : ℚ) / 100) /
          total * 100) ≤ 100
      split_ifs with h0
      · norm_num
      · exact le_of_not_lt h0
    · intro hsp hlt
      have hcond : (0 : ℚ) <
          (match findSpeedMatch line.toList with
            | some run => (parseDecimal run).getD 0
            | none => 0) ∧
          (((h * 3600 + m * 60 + s : Nat) : ℚ) + (c : ℚ) / 100) < total :=
        ⟨hsp, hlt⟩
      constructor
      · show (if (0 : ℚ) <
            (match findSpeedMatch line.toList with
              | some run => (parseDecimal run).getD 0
              | none => 0) ∧
            (((h * 3600 + m * 60 + s : Nat) : ℚ) + (c : ℚ) / 100) < total
          then some ((total - ((((h * 3600 + m * 60 + s : Nat) : ℚ)) +
            (c : ℚ) / 100)) /
            (match findSpeedMatch line.toList with
              | some run => (parseDecimal run).getD 0
              | none => 0))
          else none) = _
        rw [if_pos hcond]
      · intro e he
        show 0 < e
        rw [show (⟨_, _, _⟩ : ProgressUpdate).eta = _ from rfl, if_pos hcond] at he
        obtain rfl := Option.some.inj he
        exact div_pos (by linarith) hsp
  · simp +decide [processProgressLine, findTimeMatch, matchTimeAt,
      findSpeedMatch, matchSpeedAt, parseDecimal, natOfDigits, isSpaceChar,
      List.takeWhile, List.dropWhile, isDigitChar]
    norm_num

/-- Claim C9, witness: the theorem at duration 10 s, on the synthetic line
and on a line with no `time=` token. -/
theorem c9_progress_witness :
    processProgressLine 10 "time=00:00:05.00 speed=2.0x" =
      some ⟨50, 2, some (5 / 2)⟩ ∧
    processProgressLine 10 "frame= 100 fps=30" = none := by
  constructor
  · exact (c9_progress 10 "time=00:00:05.00 speed=2.0x" (by norm_num)).2.2
  · exact (c9_progress 10 "frame= 100 fps=30" (by norm_num)).1 (by decide)

/-- Claim C10 (amended): *provided the input file exists*, any output path
whose lowercased extension is not one of the five `SupportedFormats`
(`mp4 avi mkv webm mov`) makes `ConvertVideoWithCustomParams` return the
unsupported-output-format error straight after the existence check — with
no security validation, no probe and no spawn — even when the extension
(such as `mp3`) is on the security policy's `AllowedFormats` whitelist; the
claim as stated omits the input-existence check that precedes the format
check: when the input does not exist the function returns the
input-not-found error instead (see the counterexample). -/
theorem c10_early_format_check_amended (env : Env)
    (inputPath outputPath preset : String)
    (presetExplicit customParamsSet : Bool) (cp : CustomParameters) :
    (env.inputExists = true →
      supportedFormats.contains (getFormatFromPath outputPath) = false →
      convertVideoWithCustomParams env inputPath outputPath preset
          presetExplicit customParamsSet cp =
        (ConvertResult.err ConvertError.unsupportedOutputFormat,
          [Event.statInput])) ∧
    (env.inputExists = false →
      convertVideoWithCustomParams env inputPath outputPath preset
          presetExplicit customParamsSet cp =
        (ConvertResult.err ConvertError.inputNotFound, [Event.statInput])) ∧
    Event.securityValidation ∉ [Event.statInput] ∧
    Event.probe ∉ [Event.statInput] ∧
    Event.spawn ∉ [Event.statInput] ∧
    supportedFormats.contains (getFormatFromPath "out.mp3") = false ∧
    ValidateFileFormat "out.mp3" = Verdict.ok := by
  refine ⟨fun h1 h2 => ?_, fun h1 => ?_, by decide, by decide, by decide,
    by decide, by decide⟩
  · simp only [convertVideoWithCustomParams, h1, h2]
    simp
  · simp only [convertVideoWithCustomParams, h1]
    simp

/-- Claim C10, counterexample to the claim as stated: with a non-existent
input file and the output path `out.mp3` (extension outside
`SupportedFormats`), the entry point returns the input-not-found error, not
the unsupported-output-format error the claim promises for every such
output path. -/
theorem c10_early_format_check_cex :
    supportedFormats.contains (getFormatFromPath "out.mp3") = false ∧
    convertVideoWithCustomParams ⟨false, none⟩ "in.mp4" "out.mp3" "medium"
        false false emptyParams =
      (ConvertResult.err ConvertError.inputNotFound, [Event.statInput]) ∧
    (convertVideoWithCustomParams ⟨false, none⟩ "in.mp4" "out.mp3" "medium"
        false false emptyParams).1 ≠
      ConvertResult.err ConvertError.unsupportedOutputFormat := by
  decide

/-- Claim C10, witness: the amended theorem with an existing input and the
`mp3` output extension. -/
theorem c10_early_format_check_witness :
    convertVideoWithCustomParams ⟨true, none⟩ "in.mp4" "out.mp3" "medium"
        false false emptyParams =
      (ConvertResult.err ConvertError.unsupportedOutputFormat,
        [Event.statInput]) :=
  (c10_early_format_check_amended ⟨true, none⟩ "in.mp4" "out.mp3" "medium"
    false false emptyParams).1 (by decide) (by decide)


end TVT
